import Mathlib

/-!
Shallow embedding of the Impossible Swap SDK pricing engine
(src/constants.ts, src/entities/pair.ts), with theorems checking the
natural-language specification against it.

JSBI values are arbitrary-precision signed integers; they are modelled as ℤ.
JSBI.divide truncates toward zero, which is `Int.tdiv`; JSBI.signedRightShift
is an arithmetic shift, i.e. floor division by a power of two, which for a
positive divisor agrees with `/` (Euclidean division) on ℤ.
-/

namespace ImpossibleSwap

/-- TradeState enum from src/constants.ts. -/
inductive TradeState where
  | SELL_ALL
  | SELL_TOKEN_0
  | SELL_TOKEN_1
  | SELL_NONE
deriving DecidableEq, Repr

/-- MINIMUM_LIQUIDITY from src/constants.ts. -/
def MINIMUM_LIQUIDITY : ℤ := 1000

/-- Typed failures of the engine. The source throws exceptions
(tiny-invariant strings, InsufficientReservesError, InsufficientInputAmountError,
and the JSBI RangeError on division by zero); the spec (section 7) names the
corresponding taxonomy. Each throw site is mapped to one variant. -/
inductive PairError where
  /-- tiny-invariant CHAIN_IDS failure in token comparison. -/
  | chainMismatch
  /-- tiny-invariant ADDRESSES / TOKEN failures: the two construction tokens
  coincide, or a supplied asset does not belong to the pair. -/
  | assetMismatch
  /-- invariant LIQUIDITY / TOKEN failures of getLiquidityMinted. -/
  | liquidityMismatch
  /-- InsufficientReservesError. -/
  | insufficientReserves
  /-- InsufficientInputAmountError. -/
  | insufficientInputAmount
  /-- RangeError thrown by JSBI.divide on a zero divisor. -/
  | divisionByZero
  /-- TradeNotSupported, from the trade-gate check (spec section 7). -/
  | tradeNotSupported
deriving DecidableEq, Repr

/-- Modelled from the spec: asset identity (section 6 external collaborator),
an opaque comparable key with chain id and address giving a total order. -/
structure Token where
  chainId : ℕ
  address : ℕ
deriving DecidableEq, Repr

/-- Modelled from the spec: Amount (section 3), a pair of asset identity and
arbitrary-precision magnitude. The raw magnitude is kept as ℤ, matching JSBI. -/
structure TokenAmount where
  token : Token
  raw : ℤ
deriving DecidableEq, Repr

/-- Amount addition (external collaborator; pure, returns a new value). -/
def TokenAmount.add (a b : TokenAmount) : TokenAmount :=
  ⟨a.token, a.raw + b.raw⟩

/-- Amount subtraction (external collaborator; pure, returns a new value). -/
def TokenAmount.subtract (a b : TokenAmount) : TokenAmount :=
  ⟨a.token, a.raw - b.raw⟩

/-- Pair state from src/entities/pair.ts: the two token amounts in canonical
order (token0 sorts before token1), curve mode flag, fee and both boosts.
fee and the boosts are JS numbers holding integers; they are modelled as ℤ.
SqrtK is a pure function of these fields (computed once at construction in the
source, line 80) and is therefore modelled as a derived function `Pair.SqrtK`. -/
structure Pair where
  tokenAmount0 : TokenAmount
  tokenAmount1 : TokenAmount
  isXybk : Bool
  fee : ℤ
  boost0 : ℤ
  boost1 : ℤ
deriving DecidableEq, Repr

def Pair.token0 (p : Pair) : Token := p.tokenAmount0.token

def Pair.token1 (p : Pair) : Token := p.tokenAmount1.token

def Pair.reserve0 (p : Pair) : TokenAmount := p.tokenAmount0

def Pair.reserve1 (p : Pair) : TokenAmount := p.tokenAmount1

/-- involvesToken from pair.ts line 143. -/
def Pair.involvesToken (p : Pair) (t : Token) : Prop :=
  t = p.token0 ∨ t = p.token1

instance (p : Pair) (t : Token) : Decidable (p.involvesToken t) := by
  unfold Pair.involvesToken; infer_instance

/-- reserveOf from pair.ts line 236 (its TOKEN invariant is checked by every
caller in this embedding before the call). -/
def Pair.reserveOf (p : Pair) (t : Token) : TokenAmount :=
  if t = p.token0 then p.reserve0 else p.reserve1

/-- Binary-search loop of Pair.sqrt (pair.ts lines 128-135): while b ≥ a,
take mid = (b + a) >> 1 and narrow by comparing mid^2 with n.
The arithmetic shift by one is floor division by 2, written / on ℤ. -/
def Pair.sqrtLoop (n a b : ℤ) : ℤ :=
  if b ≥ a then
    let mid := (b + a) / 2
    if mid ^ 2 > n then Pair.sqrtLoop n a (mid - 1)
    else Pair.sqrtLoop n (mid + 1) b
  else a - 1
termination_by (b + 1 - a).toNat
decreasing_by
  · have h1 : a ≤ (b + a) / 2 := by omega
    have h2 : (b + a) / 2 ≤ b := by omega
    simp only [mid] at *
    omega
  · have h1 : a ≤ (b + a) / 2 := by omega
    have h2 : (b + a) / 2 ≤ b := by omega
    simp only [mid] at *
    omega

/-- sqrt from pair.ts lines 125-137: a = 1, b = (n >> 5) + 8, then the
binary-search loop; returns a - 1. The arithmetic shift by five is floor
division by 32. -/
def Pair.sqrt (n : ℤ) : ℤ :=
  Pair.sqrtLoop n 1 (n / 32 + 8)

/-- Invariant of the binary-search loop: if (a-1)^2 ≤ n < (b+1)^2 with
1 ≤ a ≤ b + 1 and 0 ≤ b + 1, the loop returns the floor square root. -/
theorem Pair.sqrtLoop_spec (n : ℤ) :
    ∀ k (a b : ℤ), (b + 1 - a).toNat = k → 1 ≤ a → a ≤ b + 1 → 0 ≤ b + 1 →
      (a - 1) ^ 2 ≤ n → n < (b + 1) ^ 2 →
      0 ≤ Pair.sqrtLoop n a b ∧ (Pair.sqrtLoop n a b) ^ 2 ≤ n ∧
        n < (Pair.sqrtLoop n a b + 1) ^ 2 := by
  intro k
  induction k using Nat.strong_induction_on with
  | _ k ih =>
    intro a b hk ha hab hb hlow hhigh
    rw [Pair.sqrtLoop]
    by_cases hba : b ≥ a
    · have hmid1 : a ≤ (b + a) / 2 := by omega
      have hmid2 : (b + a) / 2 ≤ b := by omega
      simp only [hba, if_true]
      by_cases hsq : ((b + a) / 2) ^ 2 > n
      · simp only [hsq, if_true]
        refine ih ((b + a) / 2 - 1 + 1 - a).toNat (by omega) a ((b + a) / 2 - 1)
          rfl ha (by omega) (by omega) hlow (by simpa using hsq)
      · simp only [hsq, if_false]
        push_neg at hsq
        refine ih (b + 1 - ((b + a) / 2 + 1)).toNat (by omega) ((b + a) / 2 + 1) b
          rfl (by omega) (by omega) hb (by simpa using hsq) hhigh
    · simp only [hba, if_false]
      have hba2 : b + 1 ≤ a := by omega
      have hpow : (b + 1) ^ 2 ≤ a ^ 2 := by nlinarith
      refine ⟨by omega, hlow, ?_⟩
      have hlt : n < a ^ 2 := lt_of_lt_of_le hhigh hpow
      simpa using hlt

/-- Seed bound: for 0 ≤ n, (n / 32 + 8 + 1)^2 > n, because
(t - 16)^2 ≥ 0 gives t^2/32 + 8 ≥ t for every real t. -/
theorem Pair.sqrt_seed_bound (n : ℤ) (hn : 0 ≤ n) : n < (n / 32 + 8 + 1) ^ 2 := by
  have h32 : (32 : ℤ) * (n / 32) ≤ n := by omega
  have hmod : n - 32 * (n / 32) < 32 := by omega
  set q := n / 32 with hq
  have hq0 : 0 ≤ q := by positivity
  nlinarith [sq_nonneg (q - 8), sq_nonneg q]

/-- Correctness of the source square root: for every nonnegative n it returns
the floor square root, i.e. agrees with Int.sqrt. -/
theorem Pair.sqrt_spec (n : ℤ) (hn : 0 ≤ n) :
    0 ≤ Pair.sqrt n ∧ (Pair.sqrt n) ^ 2 ≤ n ∧ n < (Pair.sqrt n + 1) ^ 2 := by
  have hseed := Pair.sqrt_seed_bound n hn
  have hb : 0 ≤ n / 32 + 8 := by positivity
  exact Pair.sqrtLoop_spec n _ 1 (n / 32 + 8) rfl le_rfl (by omega) (by omega)
    (by simpa using hn) hseed

/-- Pair.sqrt agrees with Mathlib Int.sqrt on nonnegative inputs. -/
theorem Pair.sqrt_eq_intSqrt (n : ℤ) (hn : 0 ≤ n) : Pair.sqrt n = Int.sqrt n := by
  obtain ⟨h0, hle, hlt⟩ := Pair.sqrt_spec n hn
  have hcast : ((n.toNat : ℕ) : ℤ) = n := Int.toNat_of_nonneg hn
  have hdef : Int.sqrt n = ((Nat.sqrt n.toNat : ℕ) : ℤ) := rfl
  have i0 : 0 ≤ Int.sqrt n := Int.sqrt_nonneg n
  have ile : (Int.sqrt n) ^ 2 ≤ n := by
    rw [hdef, ← hcast]
    exact_mod_cast Nat.sqrt_le' n.toNat
  have ilt : n < (Int.sqrt n + 1) ^ 2 := by
    rw [hdef, ← hcast]
    exact_mod_cast Nat.lt_succ_sqrt' n.toNat
  nlinarith [sq_nonneg (Pair.sqrt n - Int.sqrt n)]

/-- computeXybkSqrtK from pair.ts lines 86-107: select the boost by comparing
the two reserves, return 1 for boost 1, otherwise evaluate the closed form in
fixed point scaled by multiplier = 10^10 and scale back down.
JSBI.divide is truncation toward zero, Int.tdiv. -/
def Pair.computeXybkSqrtK (p : Pair) (b0 b1 : ℤ) : ℤ :=
  let boost : ℤ := if p.tokenAmount0.raw > p.tokenAmount1.raw then b0 else b1
  if boost = 1 then 1
  else
    let multiplier : ℤ := 10000000000
    let amount0 := p.tokenAmount0.raw * multiplier
    let amount1 := p.tokenAmount1.raw * multiplier
    let term := Int.tdiv ((boost - 1) * (amount0 + amount1)) (boost * 4 - 2)
    let result := Int.tdiv (amount0 * amount1) (boost * 2 - 1) + term ^ 2
    Int.tdiv (Pair.sqrt result + term) multiplier

/-- Constructor line 80: SqrtK is computed from the stored reserves and the
two boosts. It is immutable because the state is; modelled as a function. -/
def Pair.SqrtK (p : Pair) : ℤ :=
  p.computeXybkSqrtK p.boost0 p.boost1

/-- artiLiquidityTerm from pair.ts line 112. -/
def Pair.artiLiquidityTerm (p : Pair) (boost : ℤ) : ℤ :=
  (boost - 1) * p.SqrtK

/-- getBoost from pair.ts line 116. -/
def Pair.getBoost (p : Pair) : ℤ :=
  if p.tokenAmount0.raw > p.tokenAmount1.raw then p.boost0 else p.boost1

/-- Token.sortsBefore (external collaborator, uniswap-sdk token.ts): the
tiny-invariant safety checks CHAIN_IDS and ADDRESSES, then address order.
Modelled from the spec: asset identities form a valid distinct pair only on
one chain (sections 3 and 6 of the spec). -/
def Token.sortsBefore (a b : Token) : Except PairError Bool :=
  if a.chainId ≠ b.chainId then .error .chainMismatch
  else if a.address = b.address then .error .assetMismatch
  else .ok (a.address < b.address)

/-- Pair constructor from pair.ts lines 57-81: sort the two amounts by token
order (which performs the safety checks), store them with the curve mode, fee
and boosts. No boost or fee validation appears in the source constructor.
The liquidity token and address cache are external address-derivation
collaborators and carry no reserve state. -/
def mkPair (tokenAmountA tokenAmountB : TokenAmount) (isXybk : Bool)
    (fee b0 b1 : ℤ) : Except PairError Pair :=
  match tokenAmountA.token.sortsBefore tokenAmountB.token with
  | .error e => .error e
  | .ok aFirst =>
    if aFirst then .ok ⟨tokenAmountA, tokenAmountB, isXybk, fee, b0, b1⟩
    else .ok ⟨tokenAmountB, tokenAmountA, isXybk, fee, b0, b1⟩

/-- Modelled from the spec: the synthetic pool-share identity (section 3);
its deterministic address derivation from the two asset identities is an
external hashing collaborator (section 6), modelled by an injective pairing. -/
def Pair.liquidityToken (p : Pair) : Token :=
  ⟨p.token0.chainId, Nat.pair p.token0.address p.token1.address⟩

/-- getOutputAmount from pair.ts lines 241-312. Straight-line translation:
the mutable locals outputAmountJSBI, inputAmountWithFee, inputReserveJSBI and
outputReserveJSBI become one tuple produced by the xybk branch; the source
calls inputAmount.add(diff) and inputReserve.add(diff) on line 270-271 discard
their results (Amount operations are pure), so they do not appear.
JSBI.divide throws on a zero divisor, modelled as the divisionByZero error. -/
def Pair.getOutputAmount (p : Pair) (inputAmount : TokenAmount) :
    Except PairError (TokenAmount × Pair) :=
  if ¬ p.involvesToken inputAmount.token then .error .assetMismatch
  else if p.reserve0.raw = 0 ∨ p.reserve1.raw = 0 then .error .insufficientReserves
  else
    let inputReserve := p.reserveOf inputAmount.token
    let outputReserve :=
      p.reserveOf (if inputAmount.token = p.token0 then p.token1 else p.token0)
    let state :=
      if p.isXybk then
        if inputAmount.raw * (10000 - p.fee) + inputReserve.raw * 10000 >
            p.SqrtK * 10000 then
          if p.boost0 ≠ p.boost1 ∧ p.SqrtK > inputReserve.raw then
            let term := p.artiLiquidityTerm
              (if inputAmount.token = p.token0 then p.boost0 else p.boost1)
            (outputReserve.raw - p.SqrtK,
             inputAmount.raw * (10000 - p.fee) - (p.SqrtK - inputReserve.raw) * 10000,
             p.SqrtK + term, p.SqrtK + term)
          else
            let term := p.artiLiquidityTerm
              (if inputAmount.token = p.token0 then p.boost0 else p.boost1)
            (0, inputAmount.raw * (10000 - p.fee),
             inputReserve.raw + term, outputReserve.raw + term)
        else
          let term := p.artiLiquidityTerm
            (if inputAmount.token = p.token0 then p.boost1 else p.boost0)
          (0, inputAmount.raw * (10000 - p.fee),
           inputReserve.raw + term, outputReserve.raw + term)
      else
        (0, inputAmount.raw * (10000 - p.fee), inputReserve.raw, outputReserve.raw)
    let numerator := state.2.1 * state.2.2.2
    let denominator := state.2.2.1 * 10000 + state.2.1
    if denominator = 0 then .error .divisionByZero
    else
      let outputVal := state.1 + Int.tdiv numerator denominator
      let outputAmount : TokenAmount :=
        ⟨if inputAmount.token = p.token0 then p.token1 else p.token0,
         if outputReserve.raw > outputVal then outputVal else outputReserve.raw⟩
      if outputAmount.raw = 0 then .error .insufficientInputAmount
      else
        (mkPair (inputReserve.add inputAmount) (outputReserve.subtract outputAmount)
          p.isXybk p.fee p.boost0 p.boost1).map fun next => (outputAmount, next)

/-- getInputAmount from pair.ts lines 314-381; same conventions as
getOutputAmount. The crossing branch mutates outputAmount and outputReserve
through Amount subtraction (lines 345-346), whose results are used this time;
after the branch both equal the midpoint values. -/
def Pair.getInputAmount (p : Pair) (outputAmount0 : TokenAmount) :
    Except PairError (TokenAmount × Pair) :=
  if ¬ p.involvesToken outputAmount0.token then .error .assetMismatch
  else if p.reserve0.raw = 0 ∨ p.reserve1.raw = 0 ∨
      outputAmount0.raw ≥ (p.reserveOf outputAmount0.token).raw then
    .error .insufficientReserves
  else
    let outputReserve := p.reserveOf outputAmount0.token
    let inputReserve :=
      p.reserveOf (if outputAmount0.token = p.token0 then p.token1 else p.token0)
    let state : Except PairError (TokenAmount × TokenAmount × ℤ × ℤ × ℤ) :=
      if p.isXybk then
        if outputReserve.raw - outputAmount0.raw > p.SqrtK then
          let term := p.artiLiquidityTerm
            (if outputAmount0.token = p.token0 then p.boost0 else p.boost1)
          .ok (outputAmount0, outputReserve, 0,
               inputReserve.raw + term, outputReserve.raw + term)
        else
          if p.boost0 ≠ p.boost1 ∧ outputReserve.raw > p.SqrtK then
            let diff : TokenAmount :=
              ⟨outputAmount0.token, outputReserve.raw - p.SqrtK⟩
            if (10000 : ℤ) - p.fee = 0 then .error .divisionByZero
            else
              let term := p.artiLiquidityTerm
                (if outputAmount0.token = p.token0 then p.boost1 else p.boost0)
              .ok (outputAmount0.subtract diff, outputReserve.subtract diff,
                   Int.tdiv ((p.SqrtK - inputReserve.raw) * 10000) (10000 - p.fee),
                   p.SqrtK + term, p.SqrtK + term)
          else
            let term := p.artiLiquidityTerm
              (if outputAmount0.token = p.token0 then p.boost1 else p.boost0)
            .ok (outputAmount0, outputReserve, 0,
                 inputReserve.raw + term, outputReserve.raw + term)
      else
        .ok (outputAmount0, outputReserve, 0, inputReserve.raw, outputReserve.raw)
    match state with
    | .error e => .error e
    | .ok (outputAmount, outputReserve2, inputAmountJSBI,
           inputReserveJSBI, outputReserveJSBI) =>
      let numerator := inputReserveJSBI * outputAmount.raw * 10000
      let denominator := (outputReserveJSBI - outputAmount.raw) * (10000 - p.fee)
      if denominator = 0 then .error .divisionByZero
      else
        let inputAmount : TokenAmount :=
          ⟨if outputAmount0.token = p.token0 then p.token1 else p.token0,
           inputAmountJSBI + (Int.tdiv numerator denominator + 1)⟩
        (mkPair (inputReserve.add inputAmount) (outputReserve2.subtract outputAmount)
          p.isXybk p.fee p.boost0 p.boost1).map fun next => (inputAmount, next)

/-- Modelled from the spec: the shared utils integer square root used by
getLiquidityMinted (src/utils is not part of the provided sources); section
4.1 specifies the exact floor square root. -/
def utilsSqrt (n : ℤ) : ℤ := Int.sqrt n

/-- getLiquidityMinted from pair.ts lines 386-409. The source divides by the
raw reserves with JSBI.divide, which throws a RangeError when a divisor is
zero; that throw is modelled as the divisionByZero error, checked in the
order in which the source would perform the divisions. -/
def Pair.getLiquidityMinted (p : Pair) (totalSupply tokenAmountA tokenAmountB :
    TokenAmount) : Except PairError TokenAmount :=
  if totalSupply.token ≠ p.liquidityToken then .error .liquidityMismatch
  else
   match tokenAmountA.token.sortsBefore tokenAmountB.token with
   | .error e => .error e
   | .ok aFirst =>
    let tokenAmounts := if aFirst then (tokenAmountA, tokenAmountB)
      else (tokenAmountB, tokenAmountA)
    if ¬ (tokenAmounts.1.token = p.token0 ∧ tokenAmounts.2.token = p.token1) then
      .error .liquidityMismatch
    else
      let liquidity : Except PairError ℤ :=
        if totalSupply.raw = 0 then
          .ok (utilsSqrt (tokenAmounts.1.raw * tokenAmounts.2.raw) - MINIMUM_LIQUIDITY)
        else if p.reserve0.raw = 0 then .error .divisionByZero
        else if p.reserve1.raw = 0 then .error .divisionByZero
        else
          let amount0 := Int.tdiv (tokenAmounts.1.raw * totalSupply.raw) p.reserve0.raw
          let amount1 := Int.tdiv (tokenAmounts.2.raw * totalSupply.raw) p.reserve1.raw
          .ok (if amount0 ≤ amount1 then amount0 else amount1)
      match liquidity with
      | .error e => .error e
      | .ok liq =>
        if ¬ liq > 0 then .error .insufficientInputAmount
        else .ok ⟨p.liquidityToken, liq⟩

/-- Modelled from the spec: the trade-gate check of the quoters (sections 4.4,
4.5 and 7). The gated Pair implementation is absent from the provided sources;
only its TradeState declaration (src/constants.ts) and its test callers are
present. A direction disallowed by the gate fails with TradeNotSupported
before any quoting; SELL_NONE disallows both directions. -/
def tradeAllowed (gate : TradeState) (sellingToken0 : Bool) : Bool :=
  match gate with
  | .SELL_ALL => true
  | .SELL_TOKEN_0 => sellingToken0
  | .SELL_TOKEN_1 => !sellingToken0
  | .SELL_NONE => false

/-- Modelled from the spec: quoteOutput of the gated pool (section 4.4):
tradeGate screening, then the ungated quote. -/
def gatedGetOutputAmount (gate : TradeState) (p : Pair)
    (inputAmount : TokenAmount) : Except PairError (TokenAmount × Pair) :=
  if ¬ tradeAllowed gate (inputAmount.token = p.token0 : Bool) then
    .error .tradeNotSupported
  else p.getOutputAmount inputAmount

/-- Modelled from the spec: quoteInput of the gated pool (section 4.5):
the same tradeGate screening, then the ungated quote. The direction that
sells token0 is the one that buys token1. -/
def gatedGetInputAmount (gate : TradeState) (p : Pair)
    (outputAmount : TokenAmount) : Except PairError (TokenAmount × Pair) :=
  if ¬ tradeAllowed gate (outputAmount.token = p.token1 : Bool) then
    .error .tradeNotSupported
  else p.getInputAmount outputAmount

/-! Spec-side definitions: closed formulas written from the wording of the
specification, to be compared with the embedded source functions. -/

/-- Token bought by a quoteOutput call selling t into p (spec section 4.4,
step 1). -/
def Pair.otherToken (p : Pair) (t : Token) : Token :=
  if t = p.token0 then p.token1 else p.token0

/-- Condition under which the spec (section 4.4, step 4) splits a quoteOutput
trade at the equilibrium point: boosted curve, the post-fee input lands past
the threshold, distinct boosts and the input reserve starts below sqrtK.
The threshold test is the one of the source, pair.ts lines 258-266. -/
def outputCrossesMidpoint (p : Pair) (i : TokenAmount) : Prop :=
  p.isXybk = true ∧
  i.raw * (10000 - p.fee) + (p.reserveOf i.token).raw * 10000 > p.SqrtK * 10000 ∧
  p.boost0 ≠ p.boost1 ∧ p.SqrtK > (p.reserveOf i.token).raw

instance (p : Pair) (i : TokenAmount) : Decidable (outputCrossesMidpoint p i) := by
  unfold outputCrossesMidpoint; infer_instance

/-- amountOutFirstTrade of the spec (section 4.4 step 4): the first-segment
output reserveOut - sqrtK when the trade is split at the equilibrium point,
otherwise zero. -/
def amountOutFirstTrade (p : Pair) (i : TokenAmount) : ℤ :=
  if outputCrossesMidpoint p i
  then (p.reserveOf (p.otherToken i.token)).raw - p.SqrtK else 0

/-- lastSegmentOut of the spec (section 4.4 step 5): the constant-product
formula applied to the possibly boost-shifted reserves of the final segment,
with the post-fee input remaining for that segment. -/
def lastSegmentOut (p : Pair) (i : TokenAmount) : ℤ :=
  let rIn := (p.reserveOf i.token).raw
  let rOut := (p.reserveOf (p.otherToken i.token)).raw
  let inFee := i.raw * (10000 - p.fee)
  if p.isXybk then
    if inFee + rIn * 10000 > p.SqrtK * 10000 then
      let term := p.artiLiquidityTerm
        (if i.token = p.token0 then p.boost0 else p.boost1)
      if p.boost0 ≠ p.boost1 ∧ p.SqrtK > rIn then
        let inFee2 := inFee - (p.SqrtK - rIn) * 10000
        Int.tdiv (inFee2 * (p.SqrtK + term)) ((p.SqrtK + term) * 10000 + inFee2)
      else
        Int.tdiv (inFee * (rOut + term)) ((rIn + term) * 10000 + inFee)
    else
      let term := p.artiLiquidityTerm
        (if i.token = p.token0 then p.boost1 else p.boost0)
      Int.tdiv (inFee * (rOut + term)) ((rIn + term) * 10000 + inFee)
  else
    Int.tdiv (inFee * rOut) (rIn * 10000 + inFee)

/-- Clamped output delivered by the spec for the at-or-past-equilibrium branch
of quoteOutput (claim C2 reading of section 4.4 step 4, yes case, followed by
steps 5-6, without the reserve clamp, which is inactive at the inputs where
this value is compared). -/
def pastBranchOutput (p : Pair) (i : TokenAmount) : ℤ :=
  let rIn := (p.reserveOf i.token).raw
  let rOut := (p.reserveOf (p.otherToken i.token)).raw
  let inFee := i.raw * (10000 - p.fee)
  let term := p.artiLiquidityTerm
    (if i.token = p.token0 then p.boost0 else p.boost1)
  if p.boost0 ≠ p.boost1 ∧ p.SqrtK > rIn then
    let inFee2 := inFee - (p.SqrtK - rIn) * 10000
    (rOut - p.SqrtK) +
      Int.tdiv (inFee2 * (p.SqrtK + term)) ((p.SqrtK + term) * 10000 + inFee2)
  else
    Int.tdiv (inFee * (rOut + term)) ((rIn + term) * 10000 + inFee)

/-- Artificial-liquidity term applicable to a quoteInput call that does not
cross the midpoint (spec section 4.5): zero on the constant-product curve,
the isMatch-side boost term when the post-trade output reserve stays above
sqrtK, and the other-side boost term otherwise. -/
def inputTerm (p : Pair) (o : TokenAmount) : ℤ :=
  if p.isXybk then
    if (p.reserveOf o.token).raw - o.raw > p.SqrtK then
      p.artiLiquidityTerm (if o.token = p.token0 then p.boost0 else p.boost1)
    else
      p.artiLiquidityTerm (if o.token = p.token0 then p.boost1 else p.boost0)
  else 0

/-- Condition under which quoteInput splits the trade at the midpoint
(pair.ts lines 334-355): boosted curve, post-trade output reserve at or below
sqrtK, distinct boosts, and the output reserve starts above sqrtK. -/
def inputCrossesMidpoint (p : Pair) (o : TokenAmount) : Prop :=
  p.isXybk = true ∧ ¬ ((p.reserveOf o.token).raw - o.raw > p.SqrtK) ∧
  p.boost0 ≠ p.boost1 ∧ (p.reserveOf o.token).raw > p.SqrtK

instance (p : Pair) (o : TokenAmount) : Decidable (inputCrossesMidpoint p o) := by
  unfold inputCrossesMidpoint; infer_instance

/-- Closed form of the scaled sqrtK computation, on ℕ: the formula the source
evaluates (after selecting the active boost b ≥ 2), written as one expression
with multiplier M = 10^10, term = (b-1)((n0+n1)M) / (2(2(b-1)+1)) and
sqrtK = (isqrt(n0 M (n1 M) / (2(b-1)+1) + term^2) + term) / M, every division
truncating. -/
def computeSqrtKScaled (b n0 n1 : ℕ) : ℕ :=
  let M := 10000000000
  let term := (b - 1) * ((n0 + n1) * M) / (2 * (2 * (b - 1) + 1))
  (Nat.sqrt (n0 * M * (n1 * M) / (2 * (b - 1) + 1) + term ^ 2) + term) / M

/-- Closed form claimed by C3, at unit scale: with beta = b - 1,
term = beta (r0+r1) / (2(2 beta + 1)) and
sqrtK = isqrt(term^2 + r0 r1 / (2 beta + 1)) + term, each division a
truncating integer division. -/
def sqrtKDirectFormula (b r0 r1 : ℤ) : ℤ :=
  let beta := b - 1
  let term := Int.tdiv (beta * (r0 + r1)) (2 * (2 * beta + 1))
  Int.sqrt (term ^ 2 + Int.tdiv (r0 * r1) (2 * beta + 1)) + term

/-- Exact positive real root of the boosted-curve quadratic
(r0 + beta s)(r1 + beta s) = b^2 s^2 with beta = b - 1, i.e. the reference
value against which the integer computation drifts by at most 5 units. -/
noncomputable def sqrtKExact (b n0 n1 : ℕ) : ℝ :=
  let beta : ℝ := (b : ℝ) - 1
  beta * ((n0 : ℝ) + (n1 : ℝ)) / (2 * (2 * beta + 1)) +
    Real.sqrt ((beta * ((n0 : ℝ) + (n1 : ℝ)) / (2 * (2 * beta + 1))) ^ 2 +
      (n0 : ℝ) * (n1 : ℝ) / (2 * beta + 1))

/-- Concrete boosted pool used for the quoteOutput counterexamples: reserves
1 and 100, zero fee, boosts 2 and 5 (sqrtK evaluates to 45). -/
def pairC1 : Pair := ⟨⟨⟨0, 1⟩, 1⟩, ⟨⟨0, 2⟩, 100⟩, true, 0, 2, 5⟩

/-- Concrete boosted pool used for the sqrtK formula counterexample: reserves
2 and 1, boosts 2 and 7 (active boost 2). -/
def pairC3 : Pair := ⟨⟨⟨0, 1⟩, 2⟩, ⟨⟨0, 2⟩, 1⟩, true, 30, 2, 7⟩

/-! Theorems for the claims. -/

/-- Helper: characterization of Nat.sqrt at a concrete value. -/
theorem natSqrt_eq {n v : ℕ} (h1 : v * v ≤ n) (h2 : n < (v + 1) * (v + 1)) :
    Nat.sqrt n = v := by
  have hle : v ≤ Nat.sqrt n := Nat.le_sqrt.mpr h1
  have hlt : Nat.sqrt n < v + 1 := Nat.sqrt_lt.mpr h2
  omega

/-- Helper: real bounds of a truncating natural division. -/
theorem nat_div_bounds (a d : ℕ) (hd : 0 < d) :
    ((a / d : ℕ) : ℝ) ≤ (a : ℝ) / (d : ℝ) ∧
      (a : ℝ) / (d : ℝ) < ((a / d : ℕ) : ℝ) + 1 := by
  have hdR : (0 : ℝ) < (d : ℝ) := by exact_mod_cast hd
  constructor
  · exact Nat.cast_div_le
  · rw [div_lt_iff₀ hdR]
    have h1 : a < (a / d + 1) * d := by
      have h2 := Nat.div_add_mod a d
      have h3 := Nat.mod_lt a hd
      calc a = d * (a / d) + a % d := h2.symm
        _ < d * (a / d) + d := by omega
        _ = (a / d + 1) * d := by ring
    exact_mod_cast h1

/-- Helper: the source sqrtK computation equals the closed scaled formula,
for a pool whose reserves are the naturals n0, n1 and whose active boost is
b ≥ 2. -/
theorem computeXybkSqrtK_eq_scaled (p : Pair) (b n0 n1 : ℕ)
    (h0 : p.tokenAmount0.raw = (n0 : ℤ)) (h1 : p.tokenAmount1.raw = (n1 : ℤ))
    (hb : (if p.tokenAmount0.raw > p.tokenAmount1.raw then p.boost0
      else p.boost1) = (b : ℤ)) (h2 : 2 ≤ b) :
    p.computeXybkSqrtK p.boost0 p.boost1 = (computeSqrtKScaled b n0 n1 : ℤ) := by
  have hb1 : (1 : ℕ) ≤ b := by omega
  simp only [Pair.computeXybkSqrtK, hb]
  rw [if_neg (by omega : ¬ ((b : ℤ) = 1))]
  rw [h0, h1]
  have e1 : ((n0 : ℤ) * 10000000000 * ((n1 : ℤ) * 10000000000)) =
      ((n0 * 10000000000 * (n1 * 10000000000) : ℕ) : ℤ) := by push_cast; ring
  have e2 : ((b : ℤ) * 2 - 1) = ((2 * (b - 1) + 1 : ℕ) : ℤ) := by
    push_cast [Nat.cast_sub hb1]; ring
  have e3 : (((b : ℤ) - 1) * ((n0 : ℤ) * 10000000000 + (n1 : ℤ) * 10000000000)) =
      (((b - 1) * ((n0 + n1) * 10000000000) : ℕ) : ℤ) := by
    push_cast [Nat.cast_sub hb1]; ring
  have e4 : ((b : ℤ) * 4 - 2) = ((2 * (2 * (b - 1) + 1) : ℕ) : ℤ) := by
    push_cast [Nat.cast_sub hb1]; ring
  rw [e1, e2, e3, e4, ← Int.ofNat_tdiv, ← Int.ofNat_tdiv]
  set T : ℕ := (b - 1) * ((n0 + n1) * 10000000000) / (2 * (2 * (b - 1) + 1))
  set Q : ℕ := n0 * 10000000000 * (n1 * 10000000000) / (2 * (b - 1) + 1)
  have e5 : ((Q : ℤ) + (T : ℤ) ^ 2) = ((Q + T ^ 2 : ℕ) : ℤ) := by push_cast; ring
  rw [e5, Pair.sqrt_eq_intSqrt _ (by positivity), Int.sqrt_natCast]
  have e6 : (((Nat.sqrt (Q + T ^ 2) : ℕ) : ℤ) + (T : ℤ)) =
      ((Nat.sqrt (Q + T ^ 2) + T : ℕ) : ℤ) := by push_cast; ring
  have e7 : (10000000000 : ℤ) = ((10000000000 : ℕ) : ℤ) := by norm_num
  rw [e6, e7, ← Int.ofNat_tdiv]
  simp only [computeSqrtKScaled]

/-- Helper: concrete value of the scaled formula at boost 5, reserves 1, 100. -/
theorem scaled_5_1_100 : computeSqrtKScaled 5 1 100 = 45 := by
  rw [computeSqrtKScaled]
  norm_num

/-- Helper: concrete value of the scaled formula at boost 2, reserves 2, 1. -/
theorem scaled_2_2_1 : computeSqrtKScaled 2 2 1 = 1 := by
  rw [computeSqrtKScaled]
  norm_num

/-- Helper: sqrtK of the concrete pool pairC1. -/
theorem pairC1_SqrtK : pairC1.SqrtK = 45 := by
  have h := computeXybkSqrtK_eq_scaled pairC1 5 1 100 rfl rfl (by decide)
    (by norm_num)
  calc pairC1.SqrtK = pairC1.computeXybkSqrtK pairC1.boost0 pairC1.boost1 := rfl
    _ = (computeSqrtKScaled 5 1 100 : ℤ) := h
    _ = 45 := by rw [scaled_5_1_100]; rfl

/-- Helper: sqrtK of the concrete pool pairC3. -/
theorem pairC3_SqrtK : pairC3.SqrtK = 1 := by
  have h := computeXybkSqrtK_eq_scaled pairC3 2 2 1 rfl rfl (by decide)
    (by norm_num)
  calc pairC3.SqrtK = pairC3.computeXybkSqrtK pairC3.boost0 pairC3.boost1 := rfl
    _ = (computeSqrtKScaled 2 2 1 : ℤ) := h
    _ = 1 := by rw [scaled_2_2_1]; rfl

/-- C4: for every nonnegative integer n of unbounded size, Pair.sqrt returns
the largest integer r with r * r ≤ n, exactly: r ≥ 0, r * r ≤ n < (r+1)*(r+1),
and every integer whose square is at most n is at most r. -/
theorem sqrt_exact_floor_root (n : ℤ) (hn : 0 ≤ n) :
    0 ≤ Pair.sqrt n ∧ Pair.sqrt n * Pair.sqrt n ≤ n ∧
      n < (Pair.sqrt n + 1) * (Pair.sqrt n + 1) ∧
      ∀ r : ℤ, r * r ≤ n → r ≤ Pair.sqrt n := by
  obtain ⟨h0, hle, hlt⟩ := Pair.sqrt_spec n hn
  refine ⟨h0, by nlinarith, by nlinarith, ?_⟩
  intro r hr
  by_contra hcon
  push_neg at hcon
  have h1 : Pair.sqrt n + 1 ≤ r := by omega
  nlinarith

/-- Witness for C4 at n = 12345. -/
theorem sqrt_exact_floor_root_witness :
    (0 : ℤ) ≤ 12345 ∧
      (0 ≤ Pair.sqrt 12345 ∧ Pair.sqrt 12345 * Pair.sqrt 12345 ≤ 12345 ∧
        (12345 : ℤ) < (Pair.sqrt 12345 + 1) * (Pair.sqrt 12345 + 1) ∧
        ∀ r : ℤ, r * r ≤ 12345 → r ≤ Pair.sqrt 12345) :=
  ⟨by norm_num, sqrt_exact_floor_root 12345 (by norm_num)⟩

/-- C7 counterexample: the constructor accepts a fee far outside [0, 10000]
and a boost below 1 without any InvalidBoost or InvalidFee failure; it
returns a pool state carrying those values. -/
theorem constructor_accepts_invalid_fee_and_boost :
    mkPair ⟨⟨0, 1⟩, 100⟩ ⟨⟨0, 2⟩, 200⟩ false 20000 0 1 =
      .ok ⟨⟨⟨0, 1⟩, 100⟩, ⟨⟨0, 2⟩, 200⟩, false, 20000, 0, 1⟩ ∧
    ¬ ((0 : ℤ) ≥ 1) ∧ ¬ ((20000 : ℤ) ≤ 10000) := by
  refine ⟨rfl, by norm_num, by norm_num⟩

/-- C7 amended: the source constructor validates neither the boosts nor the
fee; whenever the two amounts form a distinct same-chain token pair,
construction succeeds for every fee and boost values, returning the amounts
sorted into canonical order. -/
theorem constructor_no_fee_or_boost_validation
    (a b : TokenAmount) (x : Bool) (fee b0 b1 : ℤ)
    (hchain : a.token.chainId = b.token.chainId)
    (haddr : a.token.address ≠ b.token.address) :
    mkPair a b x fee b0 b1 =
      .ok (if a.token.address < b.token.address
        then ⟨a, b, x, fee, b0, b1⟩ else ⟨b, a, x, fee, b0, b1⟩) := by
  unfold mkPair Token.sortsBefore
  by_cases hlt : a.token.address < b.token.address
  · simp [hchain, haddr, hlt]
  · simp [hchain, haddr, hlt]

/-- Witness for C7 amended at a concrete distinct same-chain pair with a
negative boost and an out-of-range fee. -/
theorem constructor_no_fee_or_boost_validation_witness :
    (Token.chainId ⟨3, 7⟩ = Token.chainId ⟨3, 9⟩ ∧
      Token.address ⟨3, 7⟩ ≠ Token.address ⟨3, 9⟩) ∧
    mkPair ⟨⟨3, 7⟩, 4⟩ ⟨⟨3, 9⟩, 5⟩ true 123456 (-7) 2 =
      .ok (if Token.address (TokenAmount.token ⟨⟨3, 7⟩, 4⟩) <
            Token.address (TokenAmount.token ⟨⟨3, 9⟩, 5⟩)
        then ⟨⟨⟨3, 7⟩, 4⟩, ⟨⟨3, 9⟩, 5⟩, true, 123456, -7, 2⟩
        else ⟨⟨⟨3, 9⟩, 5⟩, ⟨⟨3, 7⟩, 4⟩, true, 123456, -7, 2⟩) :=
  ⟨⟨rfl, by norm_num⟩,
    constructor_no_fee_or_boost_validation ⟨⟨3, 7⟩, 4⟩ ⟨⟨3, 9⟩, 5⟩ true 123456
      (-7) 2 rfl (by norm_num)⟩

/-- C8: on a pool gated with SELL_NONE, every quoteOutput and every quoteInput
call fails with TradeNotSupported, regardless of the pool state and amount. -/
theorem sellNone_always_tradeNotSupported :
    (∀ (p : Pair) (i : TokenAmount),
      gatedGetOutputAmount TradeState.SELL_NONE p i = .error .tradeNotSupported) ∧
    (∀ (p : Pair) (o : TokenAmount),
      gatedGetInputAmount TradeState.SELL_NONE p o = .error .tradeNotSupported) :=
  ⟨fun _ _ => rfl, fun _ _ => rfl⟩

/-- C10: getOutputAmount fails with InsufficientReserves whenever either
reserve is zero (not only when both are), for every input amount of a pool
token; no next state is produced. -/
theorem getOutputAmount_zero_reserve_insufficient
    (p : Pair) (i : TokenAmount) (htok : p.involvesToken i.token)
    (hz : p.reserve0.raw = 0 ∨ p.reserve1.raw = 0) :
    p.getOutputAmount i = .error .insufficientReserves := by
  unfold Pair.getOutputAmount
  simp only [htok, not_true_eq_false, if_false, hz, if_true, reduceIte]

/-- Witness for C10: a pool whose token-1 reserve is zero while the token-0
reserve is positive. -/
theorem getOutputAmount_zero_reserve_insufficient_witness :
    (Pair.involvesToken ⟨⟨⟨0, 1⟩, 50⟩, ⟨⟨0, 2⟩, 0⟩, false, 30, 1, 1⟩ ⟨0, 1⟩ ∧
      (Pair.reserve0 ⟨⟨⟨0, 1⟩, 50⟩, ⟨⟨0, 2⟩, 0⟩, false, 30, 1, 1⟩).raw = 0 ∨
      (Pair.reserve1 ⟨⟨⟨0, 1⟩, 50⟩, ⟨⟨0, 2⟩, 0⟩, false, 30, 1, 1⟩).raw = 0) ∧
    Pair.getOutputAmount ⟨⟨⟨0, 1⟩, 50⟩, ⟨⟨0, 2⟩, 0⟩, false, 30, 1, 1⟩
      ⟨⟨0, 1⟩, 10⟩ = .error .insufficientReserves :=
  ⟨Or.inr rfl,
    getOutputAmount_zero_reserve_insufficient _ ⟨⟨0, 1⟩, 10⟩ (Or.inl rfl)
      (Or.inr rfl)⟩

/-- C6 counterexample: a pool whose token-0 reserve is zero, positive total
supply, matching amounts. The claim asserts the computation is total with
minted shares equal to the nonzero-side ratio tdiv (8 * 100) 5 = 160; the
source instead divides by the zero reserve, which throws (JSBI RangeError),
modelled as the divisionByZero failure. -/
theorem getLiquidityMinted_zero_reserve_fails :
    Pair.getLiquidityMinted ⟨⟨⟨0, 1⟩, 0⟩, ⟨⟨0, 2⟩, 5⟩, false, 30, 1, 1⟩
      ⟨⟨0, Nat.pair 1 2⟩, 100⟩ ⟨⟨0, 1⟩, 7⟩ ⟨⟨0, 2⟩, 8⟩ =
      .error .divisionByZero ∧
    (Except.error .divisionByZero : Except PairError TokenAmount) ≠
      .ok ⟨⟨0, Nat.pair 1 2⟩, Int.tdiv (8 * 100) 5⟩ := by
  constructor
  · rfl
  · intro hcon
    exact Except.noConfusion hcon

/-- C6 amended: with positive total supply and exactly one zero reserve, the
mint computation is not total: the zero-side ratio divides by zero and the
call fails (JSBI RangeError, modelled divisionByZero) instead of treating
that side as unbounded; no shares are minted. -/
theorem getLiquidityMinted_zero_reserve_divByZero
    (p : Pair) (totalSupply amtA amtB : TokenAmount)
    (hts : totalSupply.token = p.liquidityToken)
    (hA : amtA.token = p.token0) (hB : amtB.token = p.token1)
    (hchain : p.token0.chainId = p.token1.chainId)
    (haddr : p.token0.address < p.token1.address)
    (hpos : totalSupply.raw ≠ 0)
    (hz : (p.reserve0.raw = 0 ∧ p.reserve1.raw ≠ 0) ∨
      (p.reserve0.raw ≠ 0 ∧ p.reserve1.raw = 0)) :
    p.getLiquidityMinted totalSupply amtA amtB = .error .divisionByZero := by
  rcases hz with ⟨h0, h1⟩ | ⟨h0, h1⟩ <;>
    simp [Pair.getLiquidityMinted, Token.sortsBefore, hts, hA, hB, hchain,
      hpos, haddr, h0, h1, Nat.ne_of_lt haddr]

/-- Witness for C6 amended at the concrete zero-reserve pool. -/
theorem getLiquidityMinted_zero_reserve_divByZero_witness :
    ((TokenAmount.token ⟨⟨0, Nat.pair 1 2⟩, 100⟩ =
        Pair.liquidityToken ⟨⟨⟨0, 1⟩, 0⟩, ⟨⟨0, 2⟩, 5⟩, true, 30, 2, 2⟩) ∧
      (100 : ℤ) ≠ 0) ∧
    Pair.getLiquidityMinted ⟨⟨⟨0, 1⟩, 0⟩, ⟨⟨0, 2⟩, 5⟩, true, 30, 2, 2⟩
      ⟨⟨0, Nat.pair 1 2⟩, 100⟩ ⟨⟨0, 1⟩, 7⟩ ⟨⟨0, 2⟩, 8⟩ =
      .error .divisionByZero :=
  ⟨⟨rfl, by norm_num⟩,
    getLiquidityMinted_zero_reserve_divByZero _ _ _ _ rfl rfl rfl rfl
      (by decide) (by decide)
      (Or.inl ⟨rfl, by decide⟩)⟩

/-- Helper: reading off the value returned through the final mkPair map of a
quoter, once every earlier branch has been resolved. -/
theorem mkPair_map_ok (c : Prop) [Decidable c] (A B : TokenAmount) (x : Bool)
    (fee b0 b1 : ℤ) (val inp : TokenAmount) (p2 : Pair)
    (h : (if c then (.error .divisionByZero :
            Except PairError (TokenAmount × Pair))
          else (mkPair A B x fee b0 b1).map fun next => (val, next)) =
        .ok (inp, p2)) :
    inp = val ∧ mkPair A B x fee b0 b1 = .ok p2 := by
  split at h
  · exact absurd h (by simp)
  · cases hmk : mkPair A B x fee b0 b1 with
    | error e => rw [hmk] at h; simp [Except.map] at h
    | ok nxt =>
      rw [hmk] at h
      simp only [Except.map, Except.ok.injEq, Prod.mk.injEq] at h
      exact ⟨h.1.symm, by rw [h.2]⟩

/-- Helper: the two-guard variant of mkPair_map_ok, matching the tail of
getOutputAmount. -/
theorem mkPair_map_ok2 (c1 c2 : Prop) [Decidable c1] [Decidable c2]
    (e1 e2 : PairError) (A B : TokenAmount) (x : Bool) (fee b0 b1 : ℤ)
    (val inp : TokenAmount) (p2 : Pair)
    (h : (if c1 then (.error e1 : Except PairError (TokenAmount × Pair))
          else if c2 then .error e2
          else (mkPair A B x fee b0 b1).map fun next => (val, next)) =
        .ok (inp, p2)) :
    inp = val ∧ mkPair A B x fee b0 b1 = .ok p2 := by
  split at h
  · exact absurd h (by simp)
  · split at h
    · exact absurd h (by simp)
    · cases hmk : mkPair A B x fee b0 b1 with
      | error e => rw [hmk] at h; simp [Except.map] at h
      | ok nxt =>
        rw [hmk] at h
        simp only [Except.map, Except.ok.injEq, Prod.mk.injEq] at h
        exact ⟨h.1.symm, by rw [h.2]⟩

/-- Helper: a successful mkPair call means the tokens are a distinct
same-chain pair, and the result is the two amounts in address order. -/
theorem mkPair_ok_cases (A B : TokenAmount) (x : Bool) (fee b0 b1 : ℤ)
    (p2 : Pair) (h : mkPair A B x fee b0 b1 = .ok p2) :
    A.token.chainId = B.token.chainId ∧ A.token.address ≠ B.token.address ∧
    ((A.token.address < B.token.address ∧ p2 = ⟨A, B, x, fee, b0, b1⟩) ∨
     (¬ A.token.address < B.token.address ∧ p2 = ⟨B, A, x, fee, b0, b1⟩)) := by
  unfold mkPair Token.sortsBefore at h
  by_cases hc : A.token.chainId ≠ B.token.chainId
  · rw [if_pos hc] at h; simp at h
  · rw [if_neg hc] at h
    push_neg at hc
    by_cases ha : A.token.address = B.token.address
    · rw [if_pos ha] at h; simp at h
    · rw [if_neg ha] at h
      by_cases hlt : A.token.address < B.token.address
      · refine ⟨hc, ha, Or.inl ⟨hlt, ?_⟩⟩
        simp [hlt] at h
        exact h.symm
      · refine ⟨hc, ha, Or.inr ⟨hlt, ?_⟩⟩
        simp [hlt] at h
        exact h.symm

/-- Helper: reserveOf on an explicitly built pair. -/
theorem reserveOf_mk (A B : TokenAmount) (x : Bool) (fee b0 b1 : ℤ) (t : Token) :
    Pair.reserveOf ⟨A, B, x, fee, b0, b1⟩ t = if t = A.token then A else B := rfl

/-- Helper: token0 of an explicitly built pair. -/
theorem token0_mk (A B : TokenAmount) (x : Bool) (fee b0 b1 : ℤ) :
    Pair.token0 ⟨A, B, x, fee, b0, b1⟩ = A.token := rfl

/-- Helper: token1 of an explicitly built pair. -/
theorem token1_mk (A B : TokenAmount) (x : Bool) (fee b0 b1 : ℤ) :
    Pair.token1 ⟨A, B, x, fee, b0, b1⟩ = B.token := rfl

/-- Helper: reserveOf returns the amount carrying the requested token. -/
theorem reserveOf_token (p : Pair) (t : Token) (h : p.involvesToken t) :
    (p.reserveOf t).token = t := by
  unfold Pair.reserveOf
  by_cases h0 : t = p.token0
  · rw [if_pos h0]; exact h0.symm
  · rw [if_neg h0]
    rcases h with h | h
    · exact absurd h h0
    · exact h.symm

/-- Helper: the other token of a pool token is a pool token. -/
theorem involves_otherToken (p : Pair) (t : Token) :
    p.involvesToken (p.otherToken t) := by
  unfold Pair.otherToken Pair.involvesToken
  by_cases h0 : t = p.token0
  · rw [if_pos h0]; exact Or.inr rfl
  · rw [if_neg h0]; exact Or.inl rfl

/-- C9: every successful quoteOutput call returns a freshly constructed next
state whose input-side reserve is reserveIn + amountIn, whose output-side
reserve is reserveOut - clampedOut, whose tokens are the original pool
tokens re-sorted into canonical address order, and whose curve parameters
(isXybk, fee, boost0, boost1) equal the original ones. The original state is
untouched (every operation of the embedding is pure). -/
theorem getOutputAmount_nextState (p : Pair) (i out : TokenAmount) (p2 : Pair)
    (h : p.getOutputAmount i = .ok (out, p2)) :
    (p2.reserveOf i.token).raw = (p.reserveOf i.token).raw + i.raw ∧
    (p2.reserveOf (p.otherToken i.token)).raw =
      (p.reserveOf (p.otherToken i.token)).raw - out.raw ∧
    p2.token0.address < p2.token1.address ∧
    ((p2.token0 = i.token ∧ p2.token1 = p.otherToken i.token) ∨
      (p2.token0 = p.otherToken i.token ∧ p2.token1 = i.token)) ∧
    p2.isXybk = p.isXybk ∧ p2.fee = p.fee ∧ p2.boost0 = p.boost0 ∧
    p2.boost1 = p.boost1 := by
  simp only [Pair.getOutputAmount] at h
  by_cases htok : ¬ p.involvesToken i.token
  · rw [if_pos htok] at h; exact absurd h (by simp)
  rw [if_neg htok] at h
  push_neg at htok
  by_cases hres : p.reserve0.raw = 0 ∨ p.reserve1.raw = 0
  · rw [if_pos hres] at h; exact absurd h (by simp)
  rw [if_neg hres] at h
  obtain ⟨hval, hmk⟩ := mkPair_map_ok2 _ _ _ _ _ _ _ _ _ _ _ _ _ h
  rw [← hval] at hmk
  obtain ⟨hchain, haddr, hcases⟩ := mkPair_ok_cases _ _ _ _ _ _ _ hmk
  have hAtok : ((p.reserveOf i.token).add i).token = i.token := by
    simp [TokenAmount.add, reserveOf_token p i.token htok]
  have hBtok0 : (p.reserveOf (if i.token = p.token0 then p.token1
      else p.token0)).token = p.otherToken i.token := by
    rw [show (if i.token = p.token0 then p.token1 else p.token0) =
      p.otherToken i.token from rfl]
    exact reserveOf_token p _ (involves_otherToken p i.token)
  have hBtok : ((p.reserveOf (if i.token = p.token0 then p.token1
      else p.token0)).subtract out).token = p.otherToken i.token := by
    simp [TokenAmount.subtract, hBtok0]
  rw [hAtok, hBtok] at haddr hcases
  have hne : p.otherToken i.token ≠ i.token := by
    intro hcon
    exact haddr (by rw [hcon])
  rcases hcases with ⟨hlt, rfl⟩ | ⟨hlt, rfl⟩
  · refine ⟨?_, ?_, ?_, ?_, rfl, rfl, rfl, rfl⟩
    · rw [reserveOf_mk, if_pos hAtok.symm]
      rfl
    · rw [reserveOf_mk, if_neg (by rw [hAtok]; exact hne)]
      rfl
    · simp only [token0_mk, token1_mk, hAtok, hBtok]
      exact hlt
    · exact Or.inl ⟨by rw [token0_mk]; exact hAtok,
        by rw [token1_mk]; exact hBtok⟩
  · refine ⟨?_, ?_, ?_, ?_, rfl, rfl, rfl, rfl⟩
    · rw [reserveOf_mk, if_neg (by rw [hBtok]; exact fun hcon => hne hcon.symm)]
      rfl
    · rw [reserveOf_mk, if_pos hBtok.symm]
      rfl
    · simp only [token0_mk, token1_mk, hAtok, hBtok]
      omega
    · exact Or.inr ⟨by rw [token0_mk]; exact hBtok,
        by rw [token1_mk]; exact hAtok⟩

/-- Helper: the clamp written by the source is the minimum. -/
theorem ite_gt_eq_min (a b : ℤ) : (if b > a then a else b) = min a b := by
  rw [min_def]
  split_ifs <;> omega

/-- C1 amended: for every successful quoteOutput call, the delivered output
is min(amountOutFirstTrade + lastSegmentOut, reserveOut): the reserve clamp
applies to the total of both segments, not only to the final segment. -/
theorem getOutputAmount_clamps_total (p : Pair) (i out : TokenAmount)
    (p2 : Pair) (h : p.getOutputAmount i = .ok (out, p2)) :
    out.raw = min (amountOutFirstTrade p i + lastSegmentOut p i)
      (p.reserveOf (p.otherToken i.token)).raw := by
  simp only [Pair.getOutputAmount] at h
  by_cases htok : ¬ p.involvesToken i.token
  · rw [if_pos htok] at h; exact absurd h (by simp)
  rw [if_neg htok] at h
  by_cases hres : p.reserve0.raw = 0 ∨ p.reserve1.raw = 0
  · rw [if_pos hres] at h; exact absurd h (by simp)
  rw [if_neg hres] at h
  by_cases hx : p.isXybk
  · rw [if_pos hx] at h
    by_cases hthr : i.raw * (10000 - p.fee) +
        (p.reserveOf i.token).raw * 10000 > p.SqrtK * 10000
    · rw [if_pos hthr] at h
      by_cases hcr : p.boost0 ≠ p.boost1 ∧ p.SqrtK > (p.reserveOf i.token).raw
      · rw [if_pos hcr] at h
        obtain ⟨hval, -⟩ := mkPair_map_ok2 _ _ _ _ _ _ _ _ _ _ _ _ _ h
        rw [hval]
        simp only [amountOutFirstTrade, lastSegmentOut]
        rw [if_pos (show outputCrossesMidpoint p i from
            ⟨hx, hthr, hcr.1, hcr.2⟩), if_pos hx, if_pos hthr, if_pos hcr]
        exact ite_gt_eq_min _ _
      · rw [if_neg hcr] at h
        obtain ⟨hval, -⟩ := mkPair_map_ok2 _ _ _ _ _ _ _ _ _ _ _ _ _ h
        rw [hval]
        simp only [amountOutFirstTrade, lastSegmentOut]
        rw [if_neg (show ¬ outputCrossesMidpoint p i from
            fun hcon => hcr ⟨hcon.2.2.1, hcon.2.2.2⟩),
          if_pos hx, if_pos hthr, if_neg hcr]
        exact ite_gt_eq_min _ _
    · rw [if_neg hthr] at h
      obtain ⟨hval, -⟩ := mkPair_map_ok2 _ _ _ _ _ _ _ _ _ _ _ _ _ h
      rw [hval]
      simp only [amountOutFirstTrade, lastSegmentOut]
      rw [if_neg (show ¬ outputCrossesMidpoint p i from
          fun hcon => hthr hcon.2.1), if_pos hx, if_neg hthr]
      exact ite_gt_eq_min _ _
  · rw [if_neg hx] at h
    obtain ⟨hval, -⟩ := mkPair_map_ok2 _ _ _ _ _ _ _ _ _ _ _ _ _ h
    rw [hval]
    simp only [amountOutFirstTrade, lastSegmentOut]
    rw [if_neg (show ¬ outputCrossesMidpoint p i from fun hcon => hx hcon.1),
      if_neg (show ¬ (p.isXybk = true) from hx)]
    exact ite_gt_eq_min _ _

/-- C2 amended: the at-or-past-equilibrium branch of quoteOutput is entered
only when the strict inequality amountInPostFee + reserveIn * 10000 >
sqrtK * 10000 holds; at or below the threshold, equality included, the whole
trade is quoted on the near side with the other boost term. -/
theorem getOutputAmount_nearSide_at_or_below (p : Pair) (i out : TokenAmount)
    (p2 : Pair) (h : p.getOutputAmount i = .ok (out, p2))
    (hx : p.isXybk = true)
    (hle : i.raw * (10000 - p.fee) + (p.reserveOf i.token).raw * 10000 ≤
      p.SqrtK * 10000) :
    out.raw = min
      (Int.tdiv ((i.raw * (10000 - p.fee)) *
          ((p.reserveOf (p.otherToken i.token)).raw +
            p.artiLiquidityTerm (if i.token = p.token0 then p.boost1
              else p.boost0)))
        (((p.reserveOf i.token).raw +
            p.artiLiquidityTerm (if i.token = p.token0 then p.boost1
              else p.boost0)) * 10000 + i.raw * (10000 - p.fee)))
      (p.reserveOf (p.otherToken i.token)).raw := by
  simp only [Pair.getOutputAmount] at h
  by_cases htok : ¬ p.involvesToken i.token
  · rw [if_pos htok] at h; exact absurd h (by simp)
  rw [if_neg htok] at h
  by_cases hres : p.reserve0.raw = 0 ∨ p.reserve1.raw = 0
  · rw [if_pos hres] at h; exact absurd h (by simp)
  rw [if_neg hres] at h
  rw [if_pos hx, if_neg (by omega : ¬ (i.raw * (10000 - p.fee) +
    (p.reserveOf i.token).raw * 10000 > p.SqrtK * 10000))] at h
  obtain ⟨hval, -⟩ := mkPair_map_ok2 _ _ _ _ _ _ _ _ _ _ _ _ _ h
  rw [hval]
  show (if (p.reserveOf (if i.token = p.token0 then p.token1 else p.token0)).raw >
      0 + Int.tdiv (i.raw * (10000 - p.fee) *
          ((p.reserveOf (if i.token = p.token0 then p.token1 else p.token0)).raw +
            p.artiLiquidityTerm (if i.token = p.token0 then p.boost1 else p.boost0)))
        (((p.reserveOf i.token).raw +
            p.artiLiquidityTerm (if i.token = p.token0 then p.boost1 else p.boost0)) *
          10000 + i.raw * (10000 - p.fee))
    then 0 + Int.tdiv (i.raw * (10000 - p.fee) *
          ((p.reserveOf (if i.token = p.token0 then p.token1 else p.token0)).raw +
            p.artiLiquidityTerm (if i.token = p.token0 then p.boost1 else p.boost0)))
        (((p.reserveOf i.token).raw +
            p.artiLiquidityTerm (if i.token = p.token0 then p.boost1 else p.boost0)) *
          10000 + i.raw * (10000 - p.fee))
    else (p.reserveOf (if i.token = p.token0 then p.token1 else p.token0)).raw) = _
  rw [zero_add]
  exact ite_gt_eq_min _ _

/-- C5: every successful quoteInput call that does not cross the equilibrium
midpoint returns exactly floor((reserveIn + term) * amountOut * 10000 /
(((reserveOut + term) - amountOut) * (10000 - feeBps))) + 1: one single unit
added after the truncating division. -/
theorem getInputAmount_noncrossing_formula
    (p : Pair) (o inp : TokenAmount) (p2 : Pair)
    (h : p.getInputAmount o = .ok (inp, p2))
    (hnc : ¬ inputCrossesMidpoint p o) :
    inp.raw =
      Int.tdiv
        (((p.reserveOf (p.otherToken o.token)).raw + inputTerm p o) * o.raw * 10000)
        ((((p.reserveOf o.token).raw + inputTerm p o) - o.raw) * (10000 - p.fee))
        + 1 := by
  simp only [Pair.getInputAmount] at h
  by_cases htok : ¬ p.involvesToken o.token
  · rw [if_pos htok] at h; exact absurd h (by simp)
  rw [if_neg htok] at h
  by_cases hres : p.reserve0.raw = 0 ∨ p.reserve1.raw = 0 ∨
      o.raw ≥ (p.reserveOf o.token).raw
  · rw [if_pos hres] at h; exact absurd h (by simp)
  rw [if_neg hres] at h
  by_cases hx : p.isXybk
  · rw [if_pos hx] at h
    by_cases hfar : (p.reserveOf o.token).raw - o.raw > p.SqrtK
    · rw [if_pos hfar] at h
      obtain ⟨h1, -⟩ := mkPair_map_ok _ _ _ _ _ _ _ _ _ _ h
      rw [h1]
      simp only [inputTerm, Pair.otherToken, hx, if_true, hfar, reduceIte,
        zero_add]
    · rw [if_neg hfar] at h
      have hncross : ¬ (p.boost0 ≠ p.boost1 ∧
          (p.reserveOf o.token).raw > p.SqrtK) := by
        intro hcon
        exact hnc ⟨hx, hfar, hcon.1, hcon.2⟩
      rw [if_neg hncross] at h
      obtain ⟨h1, -⟩ := mkPair_map_ok _ _ _ _ _ _ _ _ _ _ h
      rw [h1]
      simp only [inputTerm, Pair.otherToken, hx, if_true, hfar, reduceIte,
        zero_add]
  · rw [if_neg hx] at h
    obtain ⟨h1, -⟩ := mkPair_map_ok _ _ _ _ _ _ _ _ _ _ h
    rw [h1]
    simp only [inputTerm, Pair.otherToken, hx, Bool.false_eq_true, if_false,
      reduceIte, zero_add, add_zero]

/-- Helper: concrete quoteOutput on pairC1 with a large input: the ideal
output 55 + 89 = 144 exceeds the 100 available, and the delivered output is
clamped to the whole reserve. -/
theorem pairC1_out_big :
    pairC1.getOutputAmount ⟨⟨0, 1⟩, 1000000000⟩ =
      .ok (⟨⟨0, 2⟩, 100⟩, ⟨⟨⟨0, 1⟩, 1000000001⟩, ⟨⟨0, 2⟩, 0⟩, true, 0, 2, 5⟩) := by
  simp only [Pair.getOutputAmount, Pair.artiLiquidityTerm, pairC1_SqrtK]
  rfl

/-- Helper: concrete quoteOutput on pairC1 with the input that lands exactly
on the equilibrium threshold (44 * 10000 + 1 * 10000 = 45 * 10000): the
source takes the near-side branch, delivering 54. -/
theorem pairC1_out_eq :
    pairC1.getOutputAmount ⟨⟨0, 1⟩, 44⟩ =
      .ok (⟨⟨0, 2⟩, 54⟩, ⟨⟨⟨0, 1⟩, 45⟩, ⟨⟨0, 2⟩, 46⟩, true, 0, 2, 5⟩) := by
  simp only [Pair.getOutputAmount, Pair.artiLiquidityTerm, pairC1_SqrtK]
  rfl

/-- C1 counterexample: on pairC1 with input 10^9 the delivered output is 100
(the whole reserve), while the claimed formula amountOutFirstTrade +
min(lastSegmentOut, reserveOut) evaluates to 55 + min(89, 100) = 144: the
source clamps the total, not only the final segment. -/
theorem clamp_not_only_last_segment :
    pairC1.getOutputAmount ⟨⟨0, 1⟩, 1000000000⟩ =
      .ok (⟨⟨0, 2⟩, 100⟩, ⟨⟨⟨0, 1⟩, 1000000001⟩, ⟨⟨0, 2⟩, 0⟩, true, 0, 2, 5⟩) ∧
    amountOutFirstTrade pairC1 ⟨⟨0, 1⟩, 1000000000⟩ +
      min (lastSegmentOut pairC1 ⟨⟨0, 1⟩, 1000000000⟩)
        (pairC1.reserveOf (pairC1.otherToken ⟨0, 1⟩)).raw = 144 ∧
    (100 : ℤ) ≠ 144 := by
  refine ⟨pairC1_out_big, ?_, by norm_num⟩
  have h1 : amountOutFirstTrade pairC1 ⟨⟨0, 1⟩, 1000000000⟩ = 55 := by
    simp only [amountOutFirstTrade, outputCrossesMidpoint, Pair.otherToken,
      pairC1_SqrtK]
    decide
  have h2 : lastSegmentOut pairC1 ⟨⟨0, 1⟩, 1000000000⟩ = 89 := by
    simp only [lastSegmentOut, Pair.otherToken, Pair.artiLiquidityTerm,
      pairC1_SqrtK]
    decide
  rw [h1, h2]
  decide

/-- Witness for C1 amended at pairC1 with input 10^9. -/
theorem getOutputAmount_clamps_total_witness :
    (pairC1.getOutputAmount ⟨⟨0, 1⟩, 1000000000⟩ =
      .ok (⟨⟨0, 2⟩, 100⟩, ⟨⟨⟨0, 1⟩, 1000000001⟩, ⟨⟨0, 2⟩, 0⟩, true, 0, 2, 5⟩)) ∧
    (TokenAmount.raw ⟨⟨0, 2⟩, 100⟩ =
      min (amountOutFirstTrade pairC1 ⟨⟨0, 1⟩, 1000000000⟩ +
          lastSegmentOut pairC1 ⟨⟨0, 1⟩, 1000000000⟩)
        (pairC1.reserveOf (pairC1.otherToken
          (TokenAmount.token ⟨⟨0, 1⟩, 1000000000⟩))).raw) :=
  ⟨pairC1_out_big,
    getOutputAmount_clamps_total pairC1 ⟨⟨0, 1⟩, 1000000000⟩ ⟨⟨0, 2⟩, 100⟩
      ⟨⟨⟨0, 1⟩, 1000000001⟩, ⟨⟨0, 2⟩, 0⟩, true, 0, 2, 5⟩ pairC1_out_big⟩

/-- C2 counterexample: on pairC1 the input 44 satisfies the threshold with
equality (44 * 10000 + 1 * 10000 = 45 * 10000), yet the source delivers 54,
the near-side value, while the at-or-past branch described by the claim
would deliver 55 = (100 - 45) + 0: the equality case is not in the
at-or-past branch. -/
theorem equality_threshold_near_branch :
    pairC1.getOutputAmount ⟨⟨0, 1⟩, 44⟩ =
      .ok (⟨⟨0, 2⟩, 54⟩, ⟨⟨⟨0, 1⟩, 45⟩, ⟨⟨0, 2⟩, 46⟩, true, 0, 2, 5⟩) ∧
    44 * (10000 - pairC1.fee) + (pairC1.reserveOf ⟨0, 1⟩).raw * 10000 =
      pairC1.SqrtK * 10000 ∧
    pastBranchOutput pairC1 ⟨⟨0, 1⟩, 44⟩ = 55 ∧ (54 : ℤ) ≠ 55 := by
  refine ⟨pairC1_out_eq, ?_, ?_, by norm_num⟩
  · rw [pairC1_SqrtK]
    decide
  · simp only [pastBranchOutput, Pair.otherToken, Pair.artiLiquidityTerm,
      pairC1_SqrtK]
    decide

/-- Witness for C2 amended at pairC1 with the equality-threshold input 44. -/
theorem getOutputAmount_nearSide_witness :
    ((pairC1.getOutputAmount ⟨⟨0, 1⟩, 44⟩ =
        .ok (⟨⟨0, 2⟩, 54⟩, ⟨⟨⟨0, 1⟩, 45⟩, ⟨⟨0, 2⟩, 46⟩, true, 0, 2, 5⟩)) ∧
      pairC1.isXybk = true ∧
      (44 * (10000 - pairC1.fee) + (pairC1.reserveOf ⟨0, 1⟩).raw * 10000 ≤
        pairC1.SqrtK * 10000)) ∧
    (TokenAmount.raw ⟨⟨0, 2⟩, 54⟩ = min
      (Int.tdiv ((44 * (10000 - pairC1.fee)) *
          ((pairC1.reserveOf (pairC1.otherToken ⟨0, 1⟩)).raw +
            pairC1.artiLiquidityTerm (if (⟨0, 1⟩ : Token) = pairC1.token0
              then pairC1.boost1 else pairC1.boost0)))
        (((pairC1.reserveOf ⟨0, 1⟩).raw +
            pairC1.artiLiquidityTerm (if (⟨0, 1⟩ : Token) = pairC1.token0
              then pairC1.boost1 else pairC1.boost0)) * 10000 +
          44 * (10000 - pairC1.fee)))
      (pairC1.reserveOf (pairC1.otherToken ⟨0, 1⟩)).raw) :=
  ⟨⟨pairC1_out_eq, rfl, by rw [pairC1_SqrtK]; decide⟩,
    getOutputAmount_nearSide_at_or_below pairC1 ⟨⟨0, 1⟩, 44⟩ ⟨⟨0, 2⟩, 54⟩
      ⟨⟨⟨0, 1⟩, 45⟩, ⟨⟨0, 2⟩, 46⟩, true, 0, 2, 5⟩ pairC1_out_eq rfl
      (by rw [pairC1_SqrtK]; decide)⟩

/-- Witness for C5 at a constant-product pool with reserves 100/100, fee 30,
requested output 10: required input is tdiv(100*10*10000, 90*9970) + 1 = 12. -/
theorem getInputAmount_noncrossing_formula_witness :
    ((Pair.getInputAmount ⟨⟨⟨0, 1⟩, 100⟩, ⟨⟨0, 2⟩, 100⟩, false, 30, 1, 1⟩
        ⟨⟨0, 2⟩, 10⟩ =
      .ok (⟨⟨0, 1⟩, 12⟩, ⟨⟨⟨0, 1⟩, 112⟩, ⟨⟨0, 2⟩, 90⟩, false, 30, 1, 1⟩)) ∧
      ¬ inputCrossesMidpoint ⟨⟨⟨0, 1⟩, 100⟩, ⟨⟨0, 2⟩, 100⟩, false, 30, 1, 1⟩
        ⟨⟨0, 2⟩, 10⟩) ∧
    (TokenAmount.raw ⟨⟨0, 1⟩, 12⟩ =
      Int.tdiv
        (((Pair.reserveOf ⟨⟨⟨0, 1⟩, 100⟩, ⟨⟨0, 2⟩, 100⟩, false, 30, 1, 1⟩
            (Pair.otherToken ⟨⟨⟨0, 1⟩, 100⟩, ⟨⟨0, 2⟩, 100⟩, false, 30, 1, 1⟩
              ⟨0, 2⟩)).raw +
          inputTerm ⟨⟨⟨0, 1⟩, 100⟩, ⟨⟨0, 2⟩, 100⟩, false, 30, 1, 1⟩
            ⟨⟨0, 2⟩, 10⟩) * 10 * 10000)
        (((Pair.reserveOf ⟨⟨⟨0, 1⟩, 100⟩, ⟨⟨0, 2⟩, 100⟩, false, 30, 1, 1⟩
            ⟨0, 2⟩).raw +
          inputTerm ⟨⟨⟨0, 1⟩, 100⟩, ⟨⟨0, 2⟩, 100⟩, false, 30, 1, 1⟩
            ⟨⟨0, 2⟩, 10⟩ - 10) * (10000 - 30)) + 1) :=
  ⟨⟨rfl, by decide⟩,
    getInputAmount_noncrossing_formula ⟨⟨⟨0, 1⟩, 100⟩, ⟨⟨0, 2⟩, 100⟩, false,
      30, 1, 1⟩ ⟨⟨0, 2⟩, 10⟩ ⟨⟨0, 1⟩, 12⟩
      ⟨⟨⟨0, 1⟩, 112⟩, ⟨⟨0, 2⟩, 90⟩, false, 30, 1, 1⟩ rfl (by decide)⟩

/-- Witness for C9 at the same constant-product pool, input 10 of token
(0,1): delivered 9, next reserves 110 and 91 in canonical order, parameters
preserved. -/
theorem getOutputAmount_nextState_witness :
    (Pair.getOutputAmount ⟨⟨⟨0, 1⟩, 100⟩, ⟨⟨0, 2⟩, 100⟩, false, 30, 1, 1⟩
        ⟨⟨0, 1⟩, 10⟩ =
      .ok (⟨⟨0, 2⟩, 9⟩, ⟨⟨⟨0, 1⟩, 110⟩, ⟨⟨0, 2⟩, 91⟩, false, 30, 1, 1⟩)) ∧
    ((Pair.reserveOf ⟨⟨⟨0, 1⟩, 110⟩, ⟨⟨0, 2⟩, 91⟩, false, 30, 1, 1⟩
        ⟨0, 1⟩).raw =
      (Pair.reserveOf ⟨⟨⟨0, 1⟩, 100⟩, ⟨⟨0, 2⟩, 100⟩, false, 30, 1, 1⟩
        ⟨0, 1⟩).raw + 10 ∧
     (Pair.reserveOf ⟨⟨⟨0, 1⟩, 110⟩, ⟨⟨0, 2⟩, 91⟩, false, 30, 1, 1⟩
        (Pair.otherToken ⟨⟨⟨0, 1⟩, 100⟩, ⟨⟨0, 2⟩, 100⟩, false, 30, 1, 1⟩
          ⟨0, 1⟩)).raw =
      (Pair.reserveOf ⟨⟨⟨0, 1⟩, 100⟩, ⟨⟨0, 2⟩, 100⟩, false, 30, 1, 1⟩
        (Pair.otherToken ⟨⟨⟨0, 1⟩, 100⟩, ⟨⟨0, 2⟩, 100⟩, false, 30, 1, 1⟩
          ⟨0, 1⟩)).raw - 9 ∧
     Token.address (Pair.token0 ⟨⟨⟨0, 1⟩, 110⟩, ⟨⟨0, 2⟩, 91⟩, false, 30, 1, 1⟩) <
      Token.address (Pair.token1 ⟨⟨⟨0, 1⟩, 110⟩, ⟨⟨0, 2⟩, 91⟩, false, 30, 1, 1⟩) ∧
     ((Pair.token0 ⟨⟨⟨0, 1⟩, 110⟩, ⟨⟨0, 2⟩, 91⟩, false, 30, 1, 1⟩ = ⟨0, 1⟩ ∧
       Pair.token1 ⟨⟨⟨0, 1⟩, 110⟩, ⟨⟨0, 2⟩, 91⟩, false, 30, 1, 1⟩ =
        Pair.otherToken ⟨⟨⟨0, 1⟩, 100⟩, ⟨⟨0, 2⟩, 100⟩, false, 30, 1, 1⟩
          ⟨0, 1⟩) ∨
      (Pair.token0 ⟨⟨⟨0, 1⟩, 110⟩, ⟨⟨0, 2⟩, 91⟩, false, 30, 1, 1⟩ =
        Pair.otherToken ⟨⟨⟨0, 1⟩, 100⟩, ⟨⟨0, 2⟩, 100⟩, false, 30, 1, 1⟩
          ⟨0, 1⟩ ∧
       Pair.token1 ⟨⟨⟨0, 1⟩, 110⟩, ⟨⟨0, 2⟩, 91⟩, false, 30, 1, 1⟩ = ⟨0, 1⟩)) ∧
     Pair.isXybk ⟨⟨⟨0, 1⟩, 110⟩, ⟨⟨0, 2⟩, 91⟩, false, 30, 1, 1⟩ = false ∧
     Pair.fee ⟨⟨⟨0, 1⟩, 110⟩, ⟨⟨0, 2⟩, 91⟩, false, 30, 1, 1⟩ = 30 ∧
     Pair.boost0 ⟨⟨⟨0, 1⟩, 110⟩, ⟨⟨0, 2⟩, 91⟩, false, 30, 1, 1⟩ = 1 ∧
     Pair.boost1 ⟨⟨⟨0, 1⟩, 110⟩, ⟨⟨0, 2⟩, 91⟩, false, 30, 1, 1⟩ = 1) :=
  ⟨rfl,
    getOutputAmount_nextState ⟨⟨⟨0, 1⟩, 100⟩, ⟨⟨0, 2⟩, 100⟩, false, 30, 1, 1⟩
      ⟨⟨0, 1⟩, 10⟩ ⟨⟨0, 2⟩, 9⟩ ⟨⟨⟨0, 1⟩, 110⟩, ⟨⟨0, 2⟩, 91⟩, false, 30, 1, 1⟩
      rfl⟩

/-- Helper: sqrtKExact is the exact positive root of the boosted-curve
quadratic (r0 + beta s)(r1 + beta s) = b^2 s^2. -/
theorem sqrtKExact_quadratic (b n0 n1 : ℕ) (h2 : 2 ≤ b) :
    ((n0 : ℝ) + ((b : ℝ) - 1) * sqrtKExact b n0 n1) *
      ((n1 : ℝ) + ((b : ℝ) - 1) * sqrtKExact b n0 n1) =
      (b : ℝ) ^ 2 * sqrtKExact b n0 n1 ^ 2 := by
  simp only [sqrtKExact]
  set B : ℝ := (b : ℝ) - 1 with hB
  have hB1 : (1 : ℝ) ≤ B := by
    rw [hB]
    have : (2 : ℝ) ≤ (b : ℝ) := by exact_mod_cast h2
    linarith
  set t : ℝ := B * ((n0 : ℝ) + (n1 : ℝ)) / (2 * (2 * B + 1)) with ht
  set c : ℝ := (n0 : ℝ) * (n1 : ℝ) / (2 * B + 1) with hc
  set u : ℝ := Real.sqrt (t ^ 2 + c) with hu
  have hden : (2 * B + 1) ≠ 0 := by linarith
  have hden2 : (2 * (2 * B + 1)) ≠ 0 := by
    intro hcon
    apply hden
    linarith
  have hc0 : 0 ≤ c := by
    rw [hc]
    apply div_nonneg
    · positivity
    · linarith
  have hu2 : u ^ 2 = t ^ 2 + c := Real.sq_sqrt (by positivity)
  have heq1 : B * ((n0 : ℝ) + (n1 : ℝ)) = 2 * (2 * B + 1) * t := by
    rw [ht]
    field_simp
  have heq2 : (n0 : ℝ) * (n1 : ℝ) = (2 * B + 1) * c := by
    rw [hc]
    field_simp
  have hbB : (b : ℝ) = B + 1 := by rw [hB]; ring
  rw [hbB]
  linear_combination (t + u) * heq1 + heq2 + (-(2 * B + 1)) * hu2

set_option maxHeartbeats 1000000 in
/-- Helper: the scaled integer sqrtK computation is within 5 units (in fact
within 2) of the exact real root. -/
theorem sqrtKExact_bounds (b n0 n1 : ℕ) (h2 : 2 ≤ b) :
    sqrtKExact b n0 n1 - 5 ≤ (computeSqrtKScaled b n0 n1 : ℝ) ∧
    (computeSqrtKScaled b n0 n1 : ℝ) ≤ sqrtKExact b n0 n1 + 5 := by
  have hb1 : (1 : ℕ) ≤ b := by omega
  rw [show computeSqrtKScaled b n0 n1 =
    (Nat.sqrt (n0 * 10000000000 * (n1 * 10000000000) / (2 * (b - 1) + 1) +
        ((b - 1) * ((n0 + n1) * 10000000000) / (2 * (2 * (b - 1) + 1))) ^ 2) +
      (b - 1) * ((n0 + n1) * 10000000000) / (2 * (2 * (b - 1) + 1))) /
      10000000000 from rfl]
  set β : ℕ := b - 1 with hβ
  have hβ1 : 1 ≤ β := by omega
  set M : ℕ := 10000000000 with hM
  set E : ℕ := 2 * β + 1 with hE
  set D : ℕ := 2 * E with hD
  set a : ℕ := β * ((n0 + n1) * M) with ha
  set q : ℕ := n0 * M * (n1 * M) with hq
  set T : ℕ := a / D with hT
  set Q : ℕ := q / E with hQ
  set X : ℕ := Q + T ^ 2 with hX
  set R : ℕ := Nat.sqrt X with hR
  set S : ℕ := (R + T) / M with hS
  have hDpos : 0 < D := by omega
  have hEpos : 0 < E := by omega
  have hMpos : 0 < M := by rw [hM]; norm_num
  have hMR : (0 : ℝ) < (M : ℝ) := by exact_mod_cast hMpos
  set τ : ℝ := (a : ℝ) / (D : ℝ) with hτ
  set c : ℝ := (q : ℝ) / (E : ℝ) with hc
  have hτ0 : 0 ≤ τ := by rw [hτ]; positivity
  have hc0 : 0 ≤ c := by rw [hc]; positivity
  obtain ⟨hT1, hT2⟩ := nat_div_bounds a D hDpos
  obtain ⟨hQ1, hQ2⟩ := nat_div_bounds q E hEpos
  obtain ⟨hS1, hS2⟩ := nat_div_bounds (R + T) M hMpos
  rw [← hT] at hT1 hT2
  rw [← hQ] at hQ1 hQ2
  rw [← hS] at hS1 hS2
  rw [← hτ] at hT1 hT2
  rw [← hc] at hQ1 hQ2
  have hR2 : ((R : ℝ)) ^ 2 ≤ (X : ℝ) := by
    have := Nat.sqrt_le' X
    rw [← hR] at this
    exact_mod_cast this
  have hXlt : (X : ℝ) < ((R : ℝ) + 1) ^ 2 := by
    have := Nat.lt_succ_sqrt' X
    rw [← hR] at this
    exact_mod_cast this
  have hTR : (T : ℝ) ≤ (R : ℝ) := by
    have h1 : T * T ≤ X := by
      have h0 : T ^ 2 ≤ Q + T ^ 2 := Nat.le_add_left _ _
      calc T * T = T ^ 2 := (pow_two T).symm
        _ ≤ Q + T ^ 2 := h0
        _ = X := hX.symm
    have h3 : T ≤ R := by rw [hR]; exact Nat.le_sqrt.mpr h1
    exact_mod_cast h3
  have hXQT : (X : ℝ) = (Q : ℝ) + (T : ℝ) ^ 2 := by
    rw [hX]; push_cast; ring
  have harg0 : (0 : ℝ) ≤ τ ^ 2 + c := by positivity
  set u : ℝ := Real.sqrt (τ ^ 2 + c) with hu
  have hu0 : 0 ≤ u := Real.sqrt_nonneg _
  have hT0 : (0 : ℝ) ≤ (T : ℝ) := Nat.cast_nonneg T
  have hR0 : (0 : ℝ) ≤ (R : ℝ) := Nat.cast_nonneg R
  have hRu : (R : ℝ) ≤ u := by
    rw [hu]
    rw [show ((R : ℝ)) = Real.sqrt ((R : ℝ) ^ 2) from
      (Real.sqrt_sq hR0).symm]
    apply Real.sqrt_le_sqrt
    have hTτ2 : (T : ℝ) ^ 2 ≤ τ ^ 2 := by nlinarith [hT1, hτ0, hT0]
    nlinarith [hR2, hXQT, hQ1]
  have hupper : (S : ℝ) ≤ (τ + u) / (M : ℝ) := by
    have hsum : ((R + T : ℕ) : ℝ) ≤ τ + u := by
      push_cast
      linarith [hRu, hT1]
    calc (S : ℝ) ≤ ((R + T : ℕ) : ℝ) / (M : ℝ) := by
          rw [hS]; exact (nat_div_bounds (R + T) M hMpos).1
      _ ≤ (τ + u) / (M : ℝ) := by gcongr
  have hu_lt : u < (R : ℝ) + 2 := by
    rw [hu]
    refine (Real.sqrt_lt' (by positivity)).mpr ?_
    nlinarith [mul_self_lt_mul_self hτ0 hT2, hQ2, hXQT, hXlt, hTR, hT0, hR0]
  have hRT_M : ((R : ℝ) + (T : ℝ)) < (S : ℝ) * (M : ℝ) + (M : ℝ) := by
    have h1 : ((R + T : ℕ) : ℝ) < ((S : ℝ) + 1) * (M : ℝ) := by
      rw [← div_lt_iff₀ hMR]
      exact hS2
    rw [Nat.cast_add] at h1
    have h2 : ((S : ℝ) + 1) * (M : ℝ) = (S : ℝ) * (M : ℝ) + (M : ℝ) := by ring
    linarith
  have h3M : (3 : ℝ) ≤ (M : ℝ) := by rw [hM]; norm_num
  have hlower : (τ + u) / (M : ℝ) < (S : ℝ) + 2 := by
    rw [div_lt_iff₀ hMR]
    nlinarith [hu_lt, hT2, hRT_M, h3M, (by positivity : (0 : ℝ) ≤ (S : ℝ))]
  -- the exact root at unit scale is (τ + u) / M
  have hbR : (2 : ℝ) ≤ (b : ℝ) := by exact_mod_cast h2
  have hβcast : ((β : ℕ) : ℝ) = (b : ℝ) - 1 := by
    rw [hβ, Nat.cast_sub hb1, Nat.cast_one]
  have hdenR : (0 : ℝ) < 2 * (2 * ((b : ℝ) - 1) + 1) := by linarith
  have hdenR2 : (0 : ℝ) < 2 * ((b : ℝ) - 1) + 1 := by linarith
  have hτ0M : τ = ((b : ℝ) - 1) * ((n0 : ℝ) + (n1 : ℝ)) /
      (2 * (2 * ((b : ℝ) - 1) + 1)) * (M : ℝ) := by
    rw [hτ, ha, hD, hE]
    push_cast [hβcast]
    field_simp
    ring
  have hc0M : c = (n0 : ℝ) * (n1 : ℝ) / (2 * ((b : ℝ) - 1) + 1) *
      ((M : ℝ) * (M : ℝ)) := by
    rw [hc, hq, hE]
    push_cast [hβcast]
    field_simp
    ring
  have hA0 : (0 : ℝ) ≤ (((b : ℝ) - 1) * ((n0 : ℝ) + (n1 : ℝ)) /
      (2 * (2 * ((b : ℝ) - 1) + 1))) ^ 2 +
      (n0 : ℝ) * (n1 : ℝ) / (2 * ((b : ℝ) - 1) + 1) := by
    have hc₀ : (0 : ℝ) ≤ (n0 : ℝ) * (n1 : ℝ) / (2 * ((b : ℝ) - 1) + 1) :=
      div_nonneg (by positivity) (le_of_lt hdenR2)
    exact add_nonneg (sq_nonneg _) hc₀
  have hu0M : u = Real.sqrt
      ((((b : ℝ) - 1) * ((n0 : ℝ) + (n1 : ℝ)) /
        (2 * (2 * ((b : ℝ) - 1) + 1))) ^ 2 +
       (n0 : ℝ) * (n1 : ℝ) / (2 * ((b : ℝ) - 1) + 1)) * (M : ℝ) := by
    rw [hu, hτ0M, hc0M]
    rw [show (((b : ℝ) - 1) * ((n0 : ℝ) + (n1 : ℝ)) /
        (2 * (2 * ((b : ℝ) - 1) + 1)) * (M : ℝ)) ^ 2 +
        (n0 : ℝ) * (n1 : ℝ) / (2 * ((b : ℝ) - 1) + 1) * ((M : ℝ) * (M : ℝ)) =
        ((((b : ℝ) - 1) * ((n0 : ℝ) + (n1 : ℝ)) /
          (2 * (2 * ((b : ℝ) - 1) + 1))) ^ 2 +
         (n0 : ℝ) * (n1 : ℝ) / (2 * ((b : ℝ) - 1) + 1)) * (M : ℝ) ^ 2
      from by ring]
    rw [Real.sqrt_mul hA0, Real.sqrt_sq (le_of_lt hMR)]
  have hKexact : sqrtKExact b n0 n1 = (τ + u) / (M : ℝ) := by
    simp only [sqrtKExact]
    rw [hτ0M, hu0M]
    field_simp
    ring
  constructor
  · rw [hKexact]
    linarith [hlower]
  · rw [hKexact]
    linarith [hupper]

/-- C3 counterexample: on pairC3 (reserves 2 and 1, active boost 2) the
source computes sqrtK = 1 in 10^10-scaled fixed point, while the unit-scale
closed form claimed by C3 evaluates to 0. -/
theorem sqrtK_not_unit_scale_formula :
    pairC3.computeXybkSqrtK pairC3.boost0 pairC3.boost1 = 1 ∧
    sqrtKDirectFormula 2 2 1 = 0 ∧ (1 : ℤ) ≠ 0 := by
  refine ⟨pairC3_SqrtK, ?_, by norm_num⟩
  rw [sqrtKDirectFormula]
  rw [show Int.tdiv (((2 : ℤ) - 1) * (2 + 1)) (2 * (2 * ((2 : ℤ) - 1) + 1)) = 0
    from by decide]
  rw [show Int.tdiv ((2 : ℤ) * 1) (2 * ((2 : ℤ) - 1) + 1) = 0 from by decide]
  norm_num [Int.sqrt]

/-- C3 amended: computeXybkSqrtK evaluates the closed-form root in
10^10-scaled fixed point (not at unit scale), and the result is within
5 units of the exact positive real root of the quadratic
(r0 + beta s)(r1 + beta s) = b^2 s^2 with beta = b - 1 the active boost
less one. -/
theorem computeSqrtK_scaled_form_and_exact_bound
    (p : Pair) (b n0 n1 : ℕ)
    (h0 : p.tokenAmount0.raw = (n0 : ℤ)) (h1 : p.tokenAmount1.raw = (n1 : ℤ))
    (hb : p.getBoost = (b : ℤ)) (h2 : 2 ≤ b) :
    p.computeXybkSqrtK p.boost0 p.boost1 = (computeSqrtKScaled b n0 n1 : ℤ) ∧
    ((n0 : ℝ) + ((b : ℝ) - 1) * sqrtKExact b n0 n1) *
      ((n1 : ℝ) + ((b : ℝ) - 1) * sqrtKExact b n0 n1) =
      (b : ℝ) ^ 2 * sqrtKExact b n0 n1 ^ 2 ∧
    sqrtKExact b n0 n1 - 5 ≤ (computeSqrtKScaled b n0 n1 : ℝ) ∧
    (computeSqrtKScaled b n0 n1 : ℝ) ≤ sqrtKExact b n0 n1 + 5 := by
  obtain ⟨hlo, hhi⟩ := sqrtKExact_bounds b n0 n1 h2
  exact ⟨computeXybkSqrtK_eq_scaled p b n0 n1 h0 h1 hb h2,
    sqrtKExact_quadratic b n0 n1 h2, hlo, hhi⟩

/-- Witness for C3 amended at pairC1 (reserves 1 and 100, active boost 5). -/
theorem computeSqrtK_scaled_form_and_exact_bound_witness :
    (pairC1.tokenAmount0.raw = ((1 : ℕ) : ℤ) ∧
     pairC1.tokenAmount1.raw = ((100 : ℕ) : ℤ) ∧
     pairC1.getBoost = ((5 : ℕ) : ℤ) ∧ 2 ≤ 5) ∧
    (pairC1.computeXybkSqrtK pairC1.boost0 pairC1.boost1 =
        (computeSqrtKScaled 5 1 100 : ℤ) ∧
      (((1 : ℕ) : ℝ) + ((5 : ℝ) - 1) * sqrtKExact 5 1 100) *
        (((100 : ℕ) : ℝ) + ((5 : ℝ) - 1) * sqrtKExact 5 1 100) =
        ((5 : ℕ) : ℝ) ^ 2 * sqrtKExact 5 1 100 ^ 2 ∧
      sqrtKExact 5 1 100 - 5 ≤ (computeSqrtKScaled 5 1 100 : ℝ) ∧
      (computeSqrtKScaled 5 1 100 : ℝ) ≤ sqrtKExact 5 1 100 + 5) :=
  ⟨⟨rfl, rfl, rfl, by norm_num⟩, by
    have h := computeSqrtK_scaled_form_and_exact_bound pairC1 5 1 100 rfl rfl
      rfl (by norm_num)
    exact_mod_cast h⟩

end ImpossibleSwap
